import Mathlib

/-!
Verification of the tumepok decision engine (rise tracking, tier lines,
risk admission, position lifecycle) against its natural-language
specification.  The Lean definitions below are shallow embeddings of the
Python sources under src/strategy: prices and percentages are rationals,
calendar dates are integer day numbers, and the matrix of rise ranges is
passed as an explicit parameter (the concrete TUMEPOK_MATRIX constant
lives in a configuration module outside the analysed sources).
-/

/-- One row of the tumepok matrix: a rise range with its drop band.
Mirrors the dict rows of TUMEPOK_MATRIX used by rise_tracker.py and
tumepok_engine.py. -/
structure MatrixRow where
  rise_min : ℚ
  rise_max : ℚ
  drop_min : ℚ
  drop_max : ℚ
deriving DecidableEq

/-- Whether a rise percentage falls inside the closed range of a row,
exactly the loop condition rise_min <= r <= rise_max used by both
TrackingInfo.update_tumepok_calculation and
TumepokEngine._get_target_drop_rates. -/
def rowContains (row : MatrixRow) (r : ℚ) : Prop :=
  row.rise_min ≤ r ∧ r ≤ row.rise_max

instance (row : MatrixRow) (r : ℚ) : Decidable (rowContains row r) := by
  unfold rowContains; infer_instance

/-- First row whose range contains r, mirroring the for-loop with break. -/
def findRow (r : ℚ) : List MatrixRow → Option MatrixRow
  | [] => none
  | row :: rest => if rowContains row r then some row else findRow r rest

/-- Last element of the matrix, mirroring the Python index [-1] used by
the for-else fallback branch. -/
def lastRow : List MatrixRow → Option MatrixRow
  | [] => none
  | [row] => some row
  | _ :: row :: rest => lastRow (row :: rest)

/-- Matrix lookup shared by both code paths: the first row whose range
contains the rise percentage, else the last row of the matrix.  With an
empty matrix the Python code would raise; here the result is none. -/
def matrixLookup (m : List MatrixRow) (r : ℚ) : Option MatrixRow :=
  match findRow r m with
  | some row => some row
  | none => lastRow m

/-- Row used when the lookup fails; unreachable for a nonempty matrix. -/
def defaultRow : MatrixRow := ⟨0, 0, 0, 0⟩

/-- The four tier lines returned by TumepokEngine._get_target_drop_rates. -/
structure TargetDrops where
  line1 : ℚ
  line2 : ℚ
  line3 : ℚ
  stopLine : ℚ
deriving DecidableEq

/-- Embedding of TumepokEngine._get_target_drop_rates: find the matrix
row for the cumulative rise rate (last row as fallback) and derive the
three buy lines and the stop line from its drop band. -/
def getTargetDropRates (m : List MatrixRow) (r : ℚ) : TargetDrops :=
  let row := (matrixLookup m r).getD defaultRow
  { line1 := row.drop_min
    line2 := row.drop_min + (row.drop_max - row.drop_min) * (1/2)
    line3 := row.drop_min + (row.drop_max - row.drop_min) * (9/10)
    stopLine := row.drop_max }

/-! Risk controller (risk_manager.py). -/

/-- Default day-ratio table of RiskManager.position_ratios, listed in the
ascending key order produced by sorted(keys). -/
def dayRatioTable : List (ℤ × ℚ) := [(1, 1), (2, 1), (3, 4/5), (4, 1/2), (5, 0)]

/-- Default rise-ratio table of RiskManager.rise_rate_ratios, in
ascending key order. -/
def riseRatioTable : List (ℚ × ℚ) := [(50, 1), (70, 4/5), (100, 1/2), (999, 3/10)]

/-- First entry whose bound is at or above the day count; 0 past the
table, mirroring the loop of RiskManager.get_day_ratio. -/
def firstLEEntry (rd : ℤ) : List (ℤ × ℚ) → ℚ
  | [] => 0
  | (k, v) :: rest => if rd ≤ k then v else firstLEEntry rd rest

/-- First entry whose bound is strictly above the rise rate, mirroring
the loop of RiskManager.get_rise_rate_ratio. -/
def firstLTEntry (r : ℚ) : List (ℚ × ℚ) → Option ℚ
  | [] => none
  | (k, v) :: rest => if r < k then some v else firstLTEntry r rest

/-- Minimum of the table values, mirroring min(values()); 1 is a dummy
for the empty case on which Python would raise. -/
def minValue : List (ℚ × ℚ) → ℚ
  | [] => 1
  | [(_, v)] => v
  | (_, v) :: e :: rest => min v (minValue (e :: rest))

/-- Embedding of RiskManager.get_day_ratio over the default table. -/
def dayRatioOf (rd : ℤ) : ℚ := firstLEEntry rd dayRatioTable

/-- Embedding of RiskManager.get_rise_rate_ratio over the default table:
first strict upper bound wins, else the minimum table value. -/
def riseRatioOf (r : ℚ) : ℚ :=
  match firstLTEntry r riseRatioTable with
  | some v => v
  | none => minValue riseRatioTable

/-- Reasons returned by RiskManager.check_entry_allowed, one constructor
per formatted message of the source. -/
inductive EntryReason where
  | riseDaysExceeded
  | maxPositionsExceeded
  | maxSingleExceeded
  | dailyLossReached
  | minOrderNotMet
  | entryAllowed
deriving DecidableEq

/-- Mutable settings and daily state of RiskManager consulted by the
admission gate. -/
structure RiskSettings where
  max_position_stocks : ℤ
  max_single_position : ℤ
  daily_loss_limit : ℚ
  daily_total_profit : ℚ
deriving DecidableEq

/-- Embedding of RiskManager.check_entry_allowed: five rejection rules in
the fixed source order, first failure wins.  The rise-rate argument is
accepted and ignored exactly as in the source signature. -/
def checkEntryAllowed (st : RiskSettings) (rise_days : ℤ) (_rise_rate : ℚ)
    (amount : ℤ) (current_positions : ℤ) : Bool × EntryReason :=
  if rise_days ≥ 5 then (false, .riseDaysExceeded)
  else if current_positions ≥ st.max_position_stocks then (false, .maxPositionsExceeded)
  else if amount > st.max_single_position then (false, .maxSingleExceeded)
  else if st.daily_total_profit ≤ st.daily_loss_limit then (false, .dailyLossReached)
  else if amount < 50000 then (false, .minOrderNotMet)
  else (true, .entryAllowed)

/-- C8: under the default ratio tables, the sizing functions hit the
claimed boundary values: dayRatio at 3, 4, 5 gives 0.8, 0.5, 0 (first
ascending bound with less-or-equal comparison wins) and riseRatio at 49,
50, 70, 100 gives 1, 0.8, 0.5, 0.3 (first ascending bound with strict
comparison wins, else the table minimum). -/
theorem c8_ratio_boundaries :
    dayRatioOf 3 = 4/5 ∧ dayRatioOf 4 = 1/2 ∧ dayRatioOf 5 = 0 ∧
    riseRatioOf 49 = 1 ∧ riseRatioOf 50 = 4/5 ∧ riseRatioOf 70 = 1/2 ∧
    riseRatioOf 100 = 3/10 := by
  refine ⟨?_, ?_, ?_, ?_, ?_, ?_, ?_⟩ <;>
    norm_num [dayRatioOf, dayRatioTable, firstLEEntry, riseRatioOf,
      riseRatioTable, firstLTEntry, minValue]

/-! Rise tracker (rise_tracker.py, class TrackingInfo). -/

/-- Buy tiers stored in the bought_stages set. -/
inductive Stage where
  | s1
  | s2
  | s3
deriving DecidableEq

/-- Tracking states of the rise-episode state machine. -/
inductive TStatus where
  | tracking
  | waiting
  | ready
  | completed
  | stopped
deriving DecidableEq

/-- One record of the daily_prices list: calendar day, last price of the
day, and whether a new high was recorded that day. -/
structure DailyPrice where
  date : ℤ
  price : ℚ
  is_high : Bool
deriving DecidableEq

/-- State of one tracked symbol, mirroring the fields of TrackingInfo
that the tracked-symbol logic reads and writes.  Dates are integer day
numbers. -/
structure TrackingInfo where
  start_date : ℤ
  start_price : ℚ
  high_price : ℚ
  current_price : ℚ
  rise_days : ℤ
  rise_rate : ℚ
  daily_change_rate : ℚ
  drop_rate : ℚ
  target_drop_min : ℚ
  target_drop_max : ℚ
  target_drop_1st : ℚ
  target_drop_2nd : ℚ
  target_drop_3rd : ℚ
  status : TStatus
  waiting_days : ℤ
  bought_stages : List Stage
  daily_prices : List DailyPrice
deriving DecidableEq

/-- Embedding of TrackingInfo.update_tumepok_calculation: recompute the
cumulative rise rate from the high and the start price, then set the
drop band and the three lines from the matrix row (first containing row,
last row as fallback).  Note the second line is the midpoint of the band
and the third line is the band maximum itself.  On an empty matrix the
Python code would raise; here the state is returned unchanged. -/
def updateTumepokCalculation (m : List MatrixRow) (s : TrackingInfo) : TrackingInfo :=
  let rr := (s.high_price - s.start_price) / s.start_price * 100
  let s := { s with rise_rate := rr }
  match matrixLookup m rr with
  | some row =>
      { s with target_drop_min := row.drop_min
               target_drop_max := row.drop_max
               target_drop_1st := row.drop_min
               target_drop_2nd := (row.drop_min + row.drop_max) / 2
               target_drop_3rd := row.drop_max }
  | none => s

/-- Results returned by TrackingInfo.update_price and its helpers, one
constructor per string literal of the source. -/
inductive TResult where
  | highUpdated
  | maxDaysExceeded
  | tumepokReady
  | waitingStarted
  | continueT
  | trackingResumed
  | waitingCompleted
  | waitingOn
  | readyOn
deriving DecidableEq

/-- Embedding of TrackingInfo.should_start_waiting: with fewer than two
daily records the answer is no; otherwise scan the records from the most
recent and answer from the first record of today (no new high today),
defaulting to yes when today has no record. -/
def shouldStartWaiting (today : ℤ) (s : TrackingInfo) : Bool :=
  if s.daily_prices.length < 2 then false
  else
    match s.daily_prices.reverse.find? (fun dp => decide (dp.date = today)) with
    | some dp => !dp.is_high
    | none => true

/-- Embedding of TrackingInfo.check_tumepok_entry. -/
def checkTumepokEntry (today : ℤ) (s : TrackingInfo) : TrackingInfo × TResult :=
  if s.rise_days > 7 then ({ s with status := .completed }, .maxDaysExceeded)
  else if s.drop_rate ≥ s.target_drop_min then ({ s with status := .ready }, .tumepokReady)
  else if shouldStartWaiting today s then
    ({ s with status := .waiting, waiting_days := 1 }, .waitingStarted)
  else (s, .continueT)

/-- Embedding of TrackingInfo.check_waiting_period. -/
def checkWaitingPeriod (s : TrackingInfo) : TrackingInfo × TResult :=
  if s.current_price > s.high_price then
    ({ s with status := .tracking, waiting_days := 0 }, .trackingResumed)
  else if s.drop_rate ≥ s.target_drop_min then ({ s with status := .ready }, .tumepokReady)
  else if s.waiting_days ≥ 3 then ({ s with status := .ready }, .waitingCompleted)
  else (s, .waitingOn)

/-- Daily-record bookkeeping of TrackingInfo.update_price: append a
record for a new day (marked as high when the high was updated), or
rewrite the price of the existing record of today, marking it as high
when the high was updated. -/
def updateDailyPrices (today : ℤ) (p : ℚ) (hu : Bool)
    (l : List DailyPrice) : List DailyPrice :=
  match l.getLast? with
  | none => l ++ [⟨today, p, hu⟩]
  | some last =>
      if last.date ≠ today then l ++ [⟨today, p, hu⟩]
      else l.dropLast ++ [⟨last.date, p, last.is_high || hu⟩]

/-- High-water-mark section of TrackingInfo.update_price: prefer an
externally supplied day high when present and positive, otherwise
compare the current price against the stored high; the flag records
whether the high was raised. -/
def highStep (p : ℚ) (hp : Option ℚ) (s : TrackingInfo) : TrackingInfo × Bool :=
  match hp with
  | some h =>
      if 0 < h then
        if h > s.high_price then ({ s with high_price := h }, true)
        else if h = p ∧ p > s.high_price then ({ s with high_price := p }, true)
        else (s, false)
      else
        if p > s.high_price then ({ s with high_price := p }, true) else (s, false)
  | none =>
      if p > s.high_price then ({ s with high_price := p }, true) else (s, false)

/-- Tail section of TrackingInfo.update_price after the high step: record
the daily price, and either return highUpdated after recomputing the
tier lines, or recompute the drop rate and dispatch on the tracking
status. -/
def updatePriceCore (m : List MatrixRow) (today : ℤ) (p : ℚ)
    (s : TrackingInfo) (hu : Bool) : TrackingInfo × TResult :=
  let s := { s with daily_prices := updateDailyPrices today p hu s.daily_prices }
  if hu then (updateTumepokCalculation m s, .highUpdated)
  else
    let s :=
      if 0 < s.start_price then
        let crfs := (p - s.start_price) / s.start_price * 100
        let d := s.rise_rate - crfs
        { s with drop_rate := if d < 0 then 0 else d }
      else { s with drop_rate := 0 }
    match s.status with
    | .tracking => checkTumepokEntry today s
    | .waiting => checkWaitingPeriod s
    | .ready => (s, .readyOn)
    | _ => (s, .continueT)

/-- Opening bookkeeping of TrackingInfo.update_price: set the current
price, the optional change rate and the day counter computed from the
start date. -/
def preTick (today : ℤ) (p : ℚ) (dcr : Option ℚ) (s : TrackingInfo) : TrackingInfo :=
  { s with current_price := p,
           daily_change_rate := dcr.getD s.daily_change_rate,
           rise_days := today - s.start_date + 1 }

/-- Embedding of TrackingInfo.update_price, assembled from its pieces:
the preTick bookkeeping, the high-water-mark step, then the daily record
and the drop and status logic of updatePriceCore. -/
def updatePrice (m : List MatrixRow) (today : ℤ) (p : ℚ)
    (dcr hp : Option ℚ) (s : TrackingInfo) : TrackingInfo × TResult :=
  let step := highStep p hp (preTick today p dcr s)
  updatePriceCore m today p step.1 step.2

/-- Buy stage decisions returned by the stage-determination functions. -/
inductive BuyStage where
  | wait
  | stage1
  | stage2
  | stage3
deriving DecidableEq

/-- Embedding of TrackingInfo.get_buy_stage: only in READY state,
recompute the drop from the start-price rise, then test the third, the
second and the first line in that order, skipping already bought
stages. -/
def getBuyStage (s : TrackingInfo) (p : ℚ) : BuyStage :=
  if s.status ≠ .ready then .wait
  else
    let ccr := (p - s.start_price) / s.start_price * 100
    let d := s.rise_rate - ccr
    if d ≥ s.target_drop_max ∧ Stage.s3 ∉ s.bought_stages then .stage3
    else
      let mid := (s.target_drop_min + s.target_drop_max) / 2
      if d ≥ mid ∧ Stage.s2 ∉ s.bought_stages then .stage2
      else if d ≥ s.target_drop_min ∧ Stage.s1 ∉ s.bought_stages then .stage1
      else .wait

/-! Strategy engine (tumepok_engine.py): the legacy dict-based tracking
records and position records embedded in the orchestrator. -/

/-- Position status values used by the engine position dicts and by
PositionInfo. -/
inductive PStatus where
  | holding
  | trailing
  | selling
  | sold
deriving DecidableEq

/-- Engine tracking record (one entry of TumepokEngine.tracking_stocks):
a plain dict in the source; the optional rise_start_price key only
exists on some records and is read with a fallback chain by
TumepokEngine.check_sell_conditions. -/
structure ETrack where
  current_price : ℚ
  daily_change_rate : ℚ
  base_price : ℚ
  high_price : ℚ
  rise_days : ℤ
  waiting_days : ℤ
  status : TStatus
  drop_rate : ℚ
  cumulative_rise_rate : ℚ
  rise_rate : ℚ
  bought_stages : List Stage
  rise_start_price : Option ℚ
deriving DecidableEq

/-- Engine position record (one entry of TumepokEngine.positions): the
trailing_high and first_buy_price keys are created on demand in the
source, hence optional; buy_orders_count is the length of the buy_orders
list. -/
structure EPos where
  total_quantity : ℤ
  stop_loss_executed : Bool
  sell_order_sent : Bool
  status : PStatus
  current_price : ℚ
  weighted_avg_price : ℚ
  profit_rate : ℚ
  trailing_activated : Bool
  trailing_high : Option ℚ
  buy_orders_count : ℕ
  first_buy_price : Option ℚ
deriving DecidableEq

/-- Embedding of TumepokEngine.execute_stop_loss restricted to one
symbol: with no position the tracking record is deleted; with a held
quantity and the single-shot guard still clear, the guard is set, an
urgent sell is emitted (the returned Bool), the tracking status becomes
STOPPED and the position status becomes SELLING; otherwise nothing
changes. -/
def executeStopLoss (tr : Option ETrack) (pos : Option EPos) :
    Option ETrack × Option EPos × Bool :=
  match pos with
  | none => (none, none, false)
  | some p =>
      if p.total_quantity ≤ 0 then (tr, some p, false)
      else if p.stop_loss_executed then (tr, some p, false)
      else
        let p := { p with stop_loss_executed := true }
        let tr := tr.map (fun t => { t with status := .stopped })
        (tr, some { p with status := .selling }, true)

/-- Embedding of the high-water-mark section of
TumepokEngine.update_tracking_stock (current price, optional change
rate, high update preferring the supplied day high, and on a high
update: day counter increment, waiting reset and forced TRACKING). -/
def engineHighUpdate (p : ℚ) (dcr hp : Option ℚ) (t : ETrack) : ETrack × Bool :=
  let t := { t with current_price := p,
                    daily_change_rate := dcr.getD t.daily_change_rate }
  let step : ETrack × Bool :=
    match hp with
    | some h =>
        if 0 < h then
          if h > t.high_price then ({ t with high_price := h }, true)
          else if p > h ∧ p > t.high_price then ({ t with high_price := p }, true)
          else (t, false)
        else
          if p > t.high_price then ({ t with high_price := p }, true) else (t, false)
    | none =>
        if p > t.high_price then ({ t with high_price := p }, true) else (t, false)
  let t := step.1
  let hu := step.2
  if hu then
    ({ t with rise_days := t.rise_days + 1, waiting_days := 0, status := .tracking }, true)
  else (t, false)

/-- Embedding of TumepokEngine._get_buy_stage: compare the stored drop
rate against the tier lines for the stored cumulative rise rate, testing
the first, the second and the third line in that order and skipping
already bought stages. -/
def engineGetBuyStage (m : List MatrixRow) (t : ETrack) : BuyStage :=
  let targets := getTargetDropRates m t.cumulative_rise_rate
  let d := t.drop_rate
  if d ≥ targets.line1 ∧ Stage.s1 ∉ t.bought_stages then .stage1
  else if d ≥ targets.line2 ∧ Stage.s2 ∉ t.bought_stages then .stage2
  else if d ≥ targets.line3 ∧ Stage.s3 ∉ t.bought_stages then .stage3
  else .wait

/-- Side effects requested by the engine update, mirroring the calls to
execute_stop_loss (urgent market sell) and check_buy_conditions. -/
inductive EAction where
  | stopLossOrder
  | buyCheck
deriving DecidableEq

/-- Stop-loss arm of TumepokEngine.update_tracking_stock when stages were
already bought: look up the position, consult the single-shot guard, and
run execute_stop_loss when it is still clear. -/
def stopBranch (t : ETrack) : Option EPos → Option ETrack × Option EPos × List EAction
  | some pp =>
      if !pp.stop_loss_executed then
        let r := executeStopLoss (some t) (some pp)
        (r.1, r.2.1, if r.2.2 then [.stopLossOrder] else [])
      else (some t, some pp, [])
  | none =>
      let r := executeStopLoss (some t) none
      (r.1, r.2.1, if r.2.2 then [.stopLossOrder] else [])

/-- Branch logic of TumepokEngine.update_tracking_stock after the drop
and rise recomputation: the stop branch above when the drop exceeds the
stop line, READY with a buy check inside the band, otherwise waiting
accumulation from TRACKING with forced READY after three waits. -/
def engineDecide (m : List MatrixRow) (t : ETrack) (pos : Option EPos) :
    Option ETrack × Option EPos × List EAction :=
  let targets := getTargetDropRates m t.cumulative_rise_rate
  if t.drop_rate > targets.stopLine then
    if !t.bought_stages.isEmpty then stopBranch t pos
    else (some { t with status := .stopped }, pos, [])
  else if targets.line1 ≤ t.drop_rate ∧ t.drop_rate ≤ targets.stopLine then
    let t := { t with status := .ready }
    (some t, pos, if engineGetBuyStage m t ≠ .wait then [.buyCheck] else [])
  else if t.status = .tracking then
    let t := { t with status := .waiting, waiting_days := t.waiting_days + 1 }
    if t.waiting_days ≥ 3 then
      let t := { t with status := .ready }
      (some t, pos, if engineGetBuyStage m t ≠ .wait then [.buyCheck] else [])
    else (some t, pos, [])
  else (some t, pos, [])

/-- Embedding of TumepokEngine.update_tracking_stock, assembled from its
pieces: the high step, then the drop rate from the final high, the
cumulative rise from the base price, and the branch logic of
engineDecide. -/
def engineUpdateTrackingStock (m : List MatrixRow) (p : ℚ) (dcr hp : Option ℚ)
    (t : ETrack) (pos : Option EPos) :
    Option ETrack × Option EPos × List EAction :=
  let t := (engineHighUpdate p dcr hp t).1
  let fh := t.high_price
  let t := { t with drop_rate := if 0 < fh then (fh - p) / fh * 100 else 0 }
  let t := { t with cumulative_rise_rate :=
    if (0 : ℚ) < t.base_price then (fh - t.base_price) / t.base_price * 100 else 0 }
  engineDecide m t pos

/-! Position ledger (position_manager.py, classes BuyStageInfo and
PositionInfo) and the engine sell-condition path. -/

/-- One recorded buy stage (class BuyStageInfo). -/
structure StageInfo where
  stage : Stage
  price : ℚ
  quantity : ℤ
  amount : ℚ
deriving DecidableEq

/-- State of one open position (class PositionInfo).  The default
thresholds of the source are a 2 percent trailing trigger, a minus 1
percent trailing sell rate and a minus 2 percent stop-loss rate. -/
structure PosInfo where
  buy_stages : List StageInfo
  total_quantity : ℤ
  total_amount : ℚ
  weighted_avg_price : ℚ
  current_price : ℚ
  profit_rate : ℚ
  profit_amount : ℚ
  trailing_activated : Bool
  trailing_high : ℚ
  trailing_trigger_rate : ℚ
  trailing_sell_rate : ℚ
  stop_loss_rate : ℚ
  status : PStatus
deriving DecidableEq

/-- Fresh position as built by the PositionInfo constructor. -/
def initPosInfo : PosInfo :=
  { buy_stages := []
    total_quantity := 0
    total_amount := 0
    weighted_avg_price := 0
    current_price := 0
    profit_rate := 0
    profit_amount := 0
    trailing_activated := false
    trailing_high := 0
    trailing_trigger_rate := 2
    trailing_sell_rate := -1
    stop_loss_rate := -2
    status := .holding }

/-- Embedding of PositionInfo.calculate_weighted_avg_price: the guard
tests the accumulated amount, not the accumulated quantity, before
dividing amount by quantity. -/
def calculateWeightedAvgPrice (s : PosInfo) : PosInfo :=
  if (0 : ℚ) < s.total_amount then
    { s with weighted_avg_price := s.total_amount / (s.total_quantity : ℚ) }
  else { s with weighted_avg_price := 0 }

/-- Embedding of PositionInfo.add_buy_stage: append the stage, add its
quantity and amount to the totals, then recompute the weighted average
price. -/
def addBuyStage (s : PosInfo) (st : StageInfo) : PosInfo :=
  calculateWeightedAvgPrice
    { s with buy_stages := s.buy_stages ++ [st]
             total_quantity := s.total_quantity + st.quantity
             total_amount := s.total_amount + st.amount }

/-- Modelled from the spec: TumepokCalculator.calculate_profit_rate lives
in a utility module outside the analysed sources; section 4.5 of the
specification defines the profit rate as the relative gain over the
weighted average price in percent. -/
def calculateProfitRate (avg p : ℚ) : ℚ := (p - avg) / avg * 100

/-- Embedding of PositionInfo.update_trailing_stop: activate when the
profit rate first reaches the trigger, recording the current price as
the trailing high; while active, raise the trailing high whenever the
current price exceeds it. -/
def updateTrailingStop (s : PosInfo) : PosInfo :=
  let s :=
    if !s.trailing_activated ∧ s.profit_rate ≥ s.trailing_trigger_rate then
      { s with trailing_activated := true, trailing_high := s.current_price }
    else s
  if s.trailing_activated ∧ s.current_price > s.trailing_high then
    { s with trailing_high := s.current_price }
  else s

/-- Embedding of PositionInfo.update_current_price: store the price,
recompute profit rate and amount when an average price exists, then run
the trailing-stop update. -/
def updateCurrentPrice (s : PosInfo) (p : ℚ) : PosInfo :=
  let s := { s with current_price := p }
  let s :=
    if (0 : ℚ) < s.weighted_avg_price then
      { s with profit_rate := calculateProfitRate s.weighted_avg_price p,
               profit_amount := (p - s.weighted_avg_price) * (s.total_quantity : ℚ) }
    else s
  updateTrailingStop s

/-- Sell signals returned by the sell-condition checks. -/
inductive SellSignal where
  | stopLoss
  | trailingSell
deriving DecidableEq

/-- Embedding of PositionInfo.check_sell_conditions: a stop-loss signal
whenever the profit rate is at or below the stop-loss rate, with no
single-shot guard; otherwise a trailing sell when active and the slide
from the trailing high reaches the trailing sell percentage. -/
def checkSellConditions (s : PosInfo) : Option SellSignal :=
  if s.profit_rate ≤ s.stop_loss_rate then some .stopLoss
  else if s.trailing_activated ∧
      (s.trailing_high - s.current_price) / s.trailing_high * 100 ≥ |s.trailing_sell_rate| then
    some .trailingSell
  else none

/-- Stop section of TumepokEngine.check_sell_conditions: with a tracking
record, compare the drop from the rise start price (with its fallback
chain) against the configured bound; without one, fall back to the
third-stage loss rule. -/
def engineStopSignal (maxDropRate : ℚ) (tr : Option ETrack) (pos : EPos) : Bool :=
  match tr with
  | some t =>
      let rsp := t.rise_start_price.getD (pos.first_buy_price.getD pos.current_price)
      if (0 : ℚ) < rsp then
        decide ((rsp - pos.current_price) / rsp * 100 > maxDropRate)
      else false
  | none => decide (pos.buy_orders_count ≥ 3 ∧ pos.profit_rate ≤ -2)

/-- Embedding of TumepokEngine.check_sell_conditions.  The matrix-based
stop bound comes from the configuration module outside the analysed
sources and is passed as maxDropRate.  After the stop branch above, the
trailing section activates on the trigger, raises the trailing high, and
sells on the configured slide from the high. -/
def engineCheckSellConditions (maxDropRate trailingTrigger sellRate : ℚ)
    (tr : Option ETrack) (pos : EPos) : EPos × Option SellSignal :=
  let p := pos.current_price
  let profit := pos.profit_rate
  if engineStopSignal maxDropRate tr pos then (pos, some .stopLoss)
  else
    let pos :=
      if !pos.trailing_activated ∧ profit ≥ trailingTrigger then
        { pos with trailing_activated := true, trailing_high := some p }
      else pos
    if pos.trailing_activated then
      let th := pos.trailing_high.getD p
      let pos := if p > th then { pos with trailing_high := some p } else pos
      let th := if p > th then p else th
      if (th - p) / th * 100 ≥ |sellRate| then (pos, some .trailingSell)
      else (pos, none)
    else (pos, none)

/-! Lemmas about the shared matrix lookup. -/

/-- A row returned by findRow belongs to the matrix and contains r. -/
theorem findRow_eq_some {r : ℚ} :
    ∀ {m : List MatrixRow} {row : MatrixRow},
      findRow r m = some row → row ∈ m ∧ rowContains row r := by
  intro m
  induction m with
  | nil => intro row h; simp [findRow] at h
  | cons a rest ih =>
      intro row h
      by_cases hc : rowContains a r
      · simp only [findRow, if_pos hc, Option.some.injEq] at h
        exact ⟨by simp [← h], h ▸ hc⟩
      · simp only [findRow, if_neg hc] at h
        obtain ⟨h1, h2⟩ := ih h
        exact ⟨List.mem_cons_of_mem _ h1, h2⟩

/-- findRow fails exactly when no row of the matrix contains r. -/
theorem findRow_eq_none {r : ℚ} :
    ∀ {m : List MatrixRow},
      findRow r m = none ↔ ∀ row ∈ m, ¬ rowContains row r := by
  intro m
  induction m with
  | nil => simp [findRow]
  | cons a rest ih =>
      by_cases hc : rowContains a r
      · simp [findRow, hc]
      · simp [findRow, hc, ih]

/-- findRow returns the first containing row of the list. -/
theorem findRow_first {r : ℚ} (m₁ : List MatrixRow) (row : MatrixRow)
    (m₂ : List MatrixRow) (h1 : ∀ row' ∈ m₁, ¬ rowContains row' r)
    (hc : rowContains row r) :
    findRow r (m₁ ++ row :: m₂) = some row := by
  induction m₁ with
  | nil => simp [findRow, hc]
  | cons a rest ih =>
      have ha : ¬ rowContains a r := h1 a (by simp)
      simp only [List.cons_append, findRow, if_neg ha]
      exact ih (fun row' hr => h1 row' (by simp [hr]))

/-- A nonempty matrix has a last row, and it belongs to the matrix. -/
theorem lastRow_isSome :
    ∀ {m : List MatrixRow}, m ≠ [] → ∃ row, lastRow m = some row ∧ row ∈ m := by
  intro m
  induction m with
  | nil => intro h; exact absurd rfl h
  | cons a rest ih =>
      intro _
      cases rest with
      | nil => exact ⟨a, by simp [lastRow]⟩
      | cons b rest2 =>
          obtain ⟨row, h1, h2⟩ := ih (by simp)
          exact ⟨row, by simpa [lastRow] using h1, List.mem_cons_of_mem _ h2⟩

/-- Lookup on a nonempty matrix always returns a member row. -/
theorem matrixLookup_isSome {m : List MatrixRow} (hm : m ≠ []) (r : ℚ) :
    ∃ row, matrixLookup m r = some row ∧ row ∈ m := by
  unfold matrixLookup
  cases hf : findRow r m with
  | some row => exact ⟨row, rfl, (findRow_eq_some hf).1⟩
  | none =>
      obtain ⟨row, h1, h2⟩ := lastRow_isSome hm
      exact ⟨row, by simp [h1], h2⟩

/-- C9: the matrix lookup shared by TrackingInfo.update_tumepok_calculation
and TumepokEngine._get_target_drop_rates is total on a nonempty matrix
for every rise percentage at or above zero: it returns the first row
whose range contains the percentage and falls back to the last row when
no range contains it; both consulting code paths take their drop band
from the returned row rather than failing. -/
theorem c9_matrix_lookup_total (m : List MatrixRow) (hm : m ≠ []) (r : ℚ)
    (_hr : 0 ≤ r) :
    (∃ row, matrixLookup m r = some row ∧ row ∈ m) ∧
    (∀ m₁ row m₂, m = m₁ ++ row :: m₂ → (∀ row' ∈ m₁, ¬ rowContains row' r) →
      rowContains row r → matrixLookup m r = some row) ∧
    ((∀ row ∈ m, ¬ rowContains row r) → matrixLookup m r = lastRow m) ∧
    (∀ row, matrixLookup m r = some row →
      (getTargetDropRates m r).line1 = row.drop_min ∧
      (getTargetDropRates m r).stopLine = row.drop_max) ∧
    (∀ s : TrackingInfo, ∃ row,
      matrixLookup m ((s.high_price - s.start_price) / s.start_price * 100) = some row ∧
      (updateTumepokCalculation m s).target_drop_min = row.drop_min ∧
      (updateTumepokCalculation m s).target_drop_max = row.drop_max) := by
  refine ⟨matrixLookup_isSome hm r, ?_, ?_, ?_, ?_⟩
  · intro m₁ row m₂ hsplit h1 hc
    subst hsplit
    unfold matrixLookup
    rw [findRow_first m₁ row m₂ h1 hc]
  · intro hnone
    unfold matrixLookup
    rw [findRow_eq_none.mpr hnone]
  · intro row h
    simp [getTargetDropRates, h]
  · intro s
    obtain ⟨row, h1, _⟩ :=
      matrixLookup_isSome hm ((s.high_price - s.start_price) / s.start_price * 100)
    refine ⟨row, h1, ?_, ?_⟩ <;> simp [updateTumepokCalculation, h1]

/-- Witness for C9 at the scenario-A matrix row and a 45 percent rise. -/
theorem c9_matrix_lookup_witness :
    ∃ row, matrixLookup [⟨40, 60, 8, 15⟩] 45 = some row ∧
      row ∈ [(⟨40, 60, 8, 15⟩ : MatrixRow)] :=
  (c9_matrix_lookup_total [⟨40, 60, 8, 15⟩] (by simp) 45 (by norm_num)).1

/-- C1 counterexample: on the scenario-A matrix row (drop band 8 to 15)
with a 50 percent rise, TrackingInfo.update_tumepok_calculation sets the
third line to 15, the band maximum, not to the claimed 90 percent point
14.3, and the third line is not strictly below the stop-loss level given
by the band maximum. -/
theorem c1_counterexample :
    (updateTumepokCalculation [⟨40, 60, 8, 15⟩]
        ⟨0, 100, 150, 150, 1, 0, 0, 0, 0, 0, 0, 0, 0, .tracking, 0, [], []⟩).target_drop_3rd = 15 ∧
    (8 : ℚ) + (15 - 8) * (9/10) = 143/10 ∧
    (updateTumepokCalculation [⟨40, 60, 8, 15⟩]
        ⟨0, 100, 150, 150, 1, 0, 0, 0, 0, 0, 0, 0, 0, .tracking, 0, [], []⟩).target_drop_3rd ≠ 143/10 ∧
    ¬ ((updateTumepokCalculation [⟨40, 60, 8, 15⟩]
        ⟨0, 100, 150, 150, 1, 0, 0, 0, 0, 0, 0, 0, 0, .tracking, 0, [], []⟩).target_drop_3rd <
      (updateTumepokCalculation [⟨40, 60, 8, 15⟩]
        ⟨0, 100, 150, 150, 1, 0, 0, 0, 0, 0, 0, 0, 0, .tracking, 0, [], []⟩).target_drop_max) := by
  norm_num [updateTumepokCalculation, matrixLookup, findRow, rowContains]

/-- C1 amended: the four tier-line formulas of the claim, including the
strict buffer below the stop line, hold for the engine path
TumepokEngine._get_target_drop_rates; the tracker path
TrackingInfo.update_tumepok_calculation agrees on the first line and on
the midpoint second line (equal to the half-range formula) but sets the
third line to the band maximum itself, so there the third line coincides
with the stop-loss level instead of staying strictly below it. -/
theorem c1_tier_lines_amended (m : List MatrixRow) (r : ℚ) (row : MatrixRow)
    (h : matrixLookup m r = some row) :
    ((getTargetDropRates m r).line1 = row.drop_min ∧
     (getTargetDropRates m r).line2 = row.drop_min + (row.drop_max - row.drop_min) * (1/2) ∧
     (getTargetDropRates m r).line3 = row.drop_min + (row.drop_max - row.drop_min) * (9/10) ∧
     (getTargetDropRates m r).stopLine = row.drop_max ∧
     (row.drop_min < row.drop_max →
       (getTargetDropRates m r).line3 < (getTargetDropRates m r).stopLine)) ∧
    (∀ s : TrackingInfo,
      matrixLookup m ((s.high_price - s.start_price) / s.start_price * 100) = some row →
      (updateTumepokCalculation m s).target_drop_1st = row.drop_min ∧
      (updateTumepokCalculation m s).target_drop_2nd =
        row.drop_min + (row.drop_max - row.drop_min) * (1/2) ∧
      (updateTumepokCalculation m s).target_drop_3rd = row.drop_max ∧
      (updateTumepokCalculation m s).target_drop_3rd =
        (updateTumepokCalculation m s).target_drop_max) := by
  constructor
  · refine ⟨by simp [getTargetDropRates, h], by simp [getTargetDropRates, h],
      by simp [getTargetDropRates, h], by simp [getTargetDropRates, h], ?_⟩
    intro hlt
    simp only [getTargetDropRates, h, Option.getD_some]
    nlinarith
  · intro s hs
    refine ⟨by simp [updateTumepokCalculation, hs], ?_,
      by simp [updateTumepokCalculation, hs], by simp [updateTumepokCalculation, hs]⟩
    simp only [updateTumepokCalculation, hs]
    ring_nf

/-- Witness for C1 at the scenario-A matrix row and a 50 percent rise:
the engine lines are 8, 11.5, 14.3 and stop 15, with the strict buffer. -/
theorem c1_tier_lines_witness :
    (getTargetDropRates [⟨40, 60, 8, 15⟩] 50).line1 = 8 ∧
    (getTargetDropRates [⟨40, 60, 8, 15⟩] 50).line3 = 8 + (15 - 8) * (9/10) ∧
    (getTargetDropRates [⟨40, 60, 8, 15⟩] 50).line3 <
      (getTargetDropRates [⟨40, 60, 8, 15⟩] 50).stopLine := by
  have h := c1_tier_lines_amended [⟨40, 60, 8, 15⟩] 50 ⟨40, 60, 8, 15⟩
    (by norm_num [matrixLookup, findRow, rowContains])
  exact ⟨h.1.1, h.1.2.2.1, h.1.2.2.2.2 (by norm_num)⟩

/-- C3 counterexample: on the scenario-A matrix row with a 50 percent
cumulative rise, a stored drop rate of 14.5 meets all three engine lines
(8, 11.5, 14.3) with no stage bought, yet TumepokEngine._get_buy_stage
returns the first stage, not the claimed highest stage. -/
theorem c3_counterexample :
    engineGetBuyStage [⟨40, 60, 8, 15⟩]
      ⟨0, 0, 0, 0, 0, 0, .ready, 29/2, 50, 0, [], none⟩ = .stage1 ∧
    (29/2 : ℚ) ≥ (getTargetDropRates [⟨40, 60, 8, 15⟩] 50).line3 ∧
    Stage.s3 ∉ ([] : List Stage) ∧
    BuyStage.stage1 ≠ BuyStage.stage3 := by
  refine ⟨?_, ?_, by simp, by simp⟩ <;>
    norm_num [engineGetBuyStage, getTargetDropRates, matrixLookup, findRow,
      rowContains]

/-- C3 amended: in READY state, TrackingInfo.get_buy_stage tests the
third, second and first tracker lines in that order, returning the
highest untaken tier whose threshold is met and no tier when none
qualifies; TumepokEngine._get_buy_stage instead tests its first, second
and third lines in that order, returning the lowest untaken tier whose
threshold is met. -/
theorem c3_buy_stage_amended :
    (∀ (s : TrackingInfo) (p : ℚ), s.status = .ready →
      ((getBuyStage s p = .stage3 ↔
        (s.rise_rate - (p - s.start_price) / s.start_price * 100 ≥ s.target_drop_max ∧
          Stage.s3 ∉ s.bought_stages)) ∧
       (getBuyStage s p = .stage2 ↔
        (¬ (s.rise_rate - (p - s.start_price) / s.start_price * 100 ≥ s.target_drop_max ∧
            Stage.s3 ∉ s.bought_stages) ∧
         (s.rise_rate - (p - s.start_price) / s.start_price * 100 ≥
            (s.target_drop_min + s.target_drop_max) / 2 ∧
          Stage.s2 ∉ s.bought_stages))) ∧
       (getBuyStage s p = .stage1 ↔
        (¬ (s.rise_rate - (p - s.start_price) / s.start_price * 100 ≥ s.target_drop_max ∧
            Stage.s3 ∉ s.bought_stages) ∧
         ¬ (s.rise_rate - (p - s.start_price) / s.start_price * 100 ≥
              (s.target_drop_min + s.target_drop_max) / 2 ∧
            Stage.s2 ∉ s.bought_stages) ∧
         (s.rise_rate - (p - s.start_price) / s.start_price * 100 ≥ s.target_drop_min ∧
          Stage.s1 ∉ s.bought_stages))))) ∧
    (∀ (m : List MatrixRow) (t : ETrack),
      ((engineGetBuyStage m t = .stage1 ↔
        (t.drop_rate ≥ (getTargetDropRates m t.cumulative_rise_rate).line1 ∧
          Stage.s1 ∉ t.bought_stages)) ∧
       (engineGetBuyStage m t = .stage2 ↔
        (¬ (t.drop_rate ≥ (getTargetDropRates m t.cumulative_rise_rate).line1 ∧
            Stage.s1 ∉ t.bought_stages) ∧
         (t.drop_rate ≥ (getTargetDropRates m t.cumulative_rise_rate).line2 ∧
          Stage.s2 ∉ t.bought_stages))) ∧
       (engineGetBuyStage m t = .stage3 ↔
        (¬ (t.drop_rate ≥ (getTargetDropRates m t.cumulative_rise_rate).line1 ∧
            Stage.s1 ∉ t.bought_stages) ∧
         ¬ (t.drop_rate ≥ (getTargetDropRates m t.cumulative_rise_rate).line2 ∧
            Stage.s2 ∉ t.bought_stages) ∧
         (t.drop_rate ≥ (getTargetDropRates m t.cumulative_rise_rate).line3 ∧
          Stage.s3 ∉ t.bought_stages))))) := by
  constructor
  · intro s p hs
    unfold getBuyStage
    rw [if_neg (by simp [hs])]
    dsimp only
    refine ⟨?_, ?_, ?_⟩ <;> split_ifs <;> simp_all
  · intro m t
    unfold engineGetBuyStage
    dsimp only
    refine ⟨?_, ?_, ?_⟩ <;> split_ifs <;> simp_all

/-- Witness for C3: a READY tracker state with a 50 percent rise and the
8 to 15 band, at a price giving a 14.5 drop with the second stage
already bought, returns the first stage; and the engine on an untaken
14.5 drop with the scenario-A row returns its first stage. -/
theorem c3_buy_stage_witness :
    getBuyStage ⟨0, 100, 150, 0, 1, 50, 0, 0, 8, 15, 8, 23/2, 15, .ready, 0,
        [Stage.s2], []⟩ (271/2) = .stage1 ∧
    engineGetBuyStage [⟨40, 60, 8, 15⟩]
      ⟨0, 0, 0, 0, 0, 0, .ready, 29/2, 50, 0, [], none⟩ = .stage1 := by
  constructor
  · have h := (c3_buy_stage_amended.1
      ⟨0, 100, 150, 0, 1, 50, 0, 0, 8, 15, 8, 23/2, 15, .ready, 0,
        [Stage.s2], []⟩ (271/2) rfl).2.2
    refine h.mpr ⟨?_, ?_, ?_, ?_⟩
    · intro hc
      exact absurd hc.1 (by norm_num)
    · intro hc
      exact hc.2 (by simp)
    · norm_num
    · decide
  · have h := ((c3_buy_stage_amended.2 [⟨40, 60, 8, 15⟩]
      ⟨0, 0, 0, 0, 0, 0, .ready, 29/2, 50, 0, [], none⟩).1)
    refine h.mpr ⟨?_, by simp⟩
    norm_num [getTargetDropRates, matrixLookup, findRow, rowContains]

/-! Field-preservation lemmas for the tracker update pieces. -/

/-- The high step changes at most the high price. -/
theorem highStep_fields (p : ℚ) (hp : Option ℚ) (s : TrackingInfo) :
    (highStep p hp s).1.start_date = s.start_date ∧
    (highStep p hp s).1.start_price = s.start_price ∧
    (highStep p hp s).1.current_price = s.current_price ∧
    (highStep p hp s).1.rise_days = s.rise_days ∧
    (highStep p hp s).1.rise_rate = s.rise_rate ∧
    (highStep p hp s).1.daily_change_rate = s.daily_change_rate ∧
    (highStep p hp s).1.drop_rate = s.drop_rate ∧
    (highStep p hp s).1.status = s.status ∧
    (highStep p hp s).1.waiting_days = s.waiting_days ∧
    (highStep p hp s).1.daily_prices = s.daily_prices := by
  cases hp with
  | none =>
      by_cases h4 : p > s.high_price <;> simp [highStep, h4]
  | some h =>
      by_cases h1 : (0 : ℚ) < h
      · by_cases h2 : h > s.high_price
        · simp [highStep, h1, h2]
        · by_cases h3 : h = p ∧ p > s.high_price
          · simp [highStep, h1, h2, h3]
          · simp [highStep, h1, h2, h3]
      · by_cases h4 : p > s.high_price <;> simp [highStep, h1, h4]

/-- A raised flag from the high step means the high price strictly rose. -/
theorem highStep_raises (p : ℚ) (hp : Option ℚ) (s : TrackingInfo) :
    (highStep p hp s).2 = true → s.high_price < (highStep p hp s).1.high_price := by
  cases hp with
  | none =>
      by_cases h4 : p > s.high_price <;> simp [highStep, h4]
  | some h =>
      by_cases h1 : (0 : ℚ) < h
      · by_cases h2 : h > s.high_price
        · simp [highStep, h1, h2]
        · by_cases h3 : h = p ∧ p > s.high_price
          · simp [highStep, h1, h2, h3]
          · simp [highStep, h1, h2, h3]
      · by_cases h4 : p > s.high_price <;> simp [highStep, h1, h4]

/-- Recomputing the tier lines does not change the machine status. -/
theorem updateTumepokCalculation_status (m : List MatrixRow) (s : TrackingInfo) :
    (updateTumepokCalculation m s).status = s.status := by
  unfold updateTumepokCalculation
  rcases h : matrixLookup m ((s.high_price - s.start_price) / s.start_price * 100) with _ | row <;>
    simp [h]

/-- Recomputing the tier lines does not change the waiting counter. -/
theorem updateTumepokCalculation_waiting (m : List MatrixRow) (s : TrackingInfo) :
    (updateTumepokCalculation m s).waiting_days = s.waiting_days := by
  unfold updateTumepokCalculation
  rcases h : matrixLookup m ((s.high_price - s.start_price) / s.start_price * 100) with _ | row <;>
    simp [h]

/-- Recomputing the tier lines does not change the high price. -/
theorem updateTumepokCalculation_high (m : List MatrixRow) (s : TrackingInfo) :
    (updateTumepokCalculation m s).high_price = s.high_price := by
  unfold updateTumepokCalculation
  rcases h : matrixLookup m ((s.high_price - s.start_price) / s.start_price * 100) with _ | row <;>
    simp [h]

/-- The TRACKING dispatch preserves the drop rate. -/
theorem checkTumepokEntry_drop (today : ℤ) (s : TrackingInfo) :
    (checkTumepokEntry today s).1.drop_rate = s.drop_rate := by
  unfold checkTumepokEntry
  split_ifs <;> simp

/-- The TRACKING dispatch never reports a high update. -/
theorem checkTumepokEntry_ne_high (today : ℤ) (s : TrackingInfo) :
    (checkTumepokEntry today s).2 ≠ .highUpdated := by
  unfold checkTumepokEntry
  split_ifs <;> simp

/-- The WAITING dispatch preserves the drop rate. -/
theorem checkWaitingPeriod_drop (s : TrackingInfo) :
    (checkWaitingPeriod s).1.drop_rate = s.drop_rate := by
  unfold checkWaitingPeriod
  split_ifs <;> simp

/-- The WAITING dispatch never reports a high update. -/
theorem checkWaitingPeriod_ne_high (s : TrackingInfo) :
    (checkWaitingPeriod s).2 ≠ .highUpdated := by
  unfold checkWaitingPeriod
  split_ifs <;> simp

/-- Clamping negative drops to zero is the maximum with zero. -/
theorem ite_neg_max (d : ℚ) : (if d < 0 then 0 else d) = max 0 d := by
  by_cases hd : d < 0
  · simp [hd, max_eq_left (le_of_lt hd)]
  · simp [hd, max_eq_right (not_lt.mp hd)]

/-- Without a high update the tracker tail computes the clamped drop from
the stored rise rate and never reports a high update. -/
theorem updatePriceCore_false (m : List MatrixRow) (today : ℤ) (p : ℚ)
    (s : TrackingInfo) :
    (updatePriceCore m today p s false).2 ≠ .highUpdated ∧
    (0 < s.start_price →
      (updatePriceCore m today p s false).1.drop_rate =
        max 0 (s.rise_rate - (p - s.start_price) / s.start_price * 100)) := by
  constructor
  · simp only [updatePriceCore, Bool.false_eq_true, if_false]
    split_ifs with h0 <;>
      (cases hstat : s.status <;>
        simp only [hstat] <;>
        first
          | exact checkTumepokEntry_ne_high _ _
          | exact checkWaitingPeriod_ne_high _
          | simp)
  · intro h0
    simp only [updatePriceCore, Bool.false_eq_true, if_false]
    rw [ite_neg_max]
    split_ifs with h0'
    all_goals
      first
        | exact absurd h0 (by simpa using h0')
        | (cases hstat : s.status <;>
            simp [hstat, checkTumepokEntry_drop, checkWaitingPeriod_drop])

/-- With a high update the tracker tail reports highUpdated and leaves
the waiting counter and the status untouched. -/
theorem updatePriceCore_true (m : List MatrixRow) (today : ℤ) (p : ℚ)
    (s : TrackingInfo) :
    (updatePriceCore m today p s true).2 = .highUpdated ∧
    (updatePriceCore m today p s true).1.waiting_days = s.waiting_days ∧
    (updatePriceCore m today p s true).1.status = s.status := by
  refine ⟨by simp [updatePriceCore], ?_, ?_⟩
  · simp only [updatePriceCore, if_true]
    rw [updateTumepokCalculation_waiting]
  · simp only [updatePriceCore, if_true]
    rw [updateTumepokCalculation_status]

/-- C2 counterexample: a tracked engine record with base price 100 and
high 200 (a 100 percent cumulative rise) updated at price 150 stores a
drop rate of 25, the naive high-based percentage, while the claimed
formula from the cumulative rise minus the current rise from the start
gives 50. -/
theorem c2_counterexample :
    ((engineUpdateTrackingStock [⟨70, 999, 20, 30⟩] 150 none none
        ⟨0, 0, 100, 200, 1, 0, .tracking, 0, 0, 0, [], none⟩ none).1.map
      ETrack.drop_rate) = some 25 ∧
    max (0 : ℚ) (100 - (150 - 100) / 100 * 100) = 50 ∧
    (25 : ℚ) ≠ 50 := by
  refine ⟨?_, by norm_num, by norm_num⟩
  norm_num [engineUpdateTrackingStock, engineDecide, engineHighUpdate,
    engineGetBuyStage, getTargetDropRates, matrixLookup, findRow, lastRow,
    rowContains, executeStopLoss, defaultRow]

/-- Every branch of the engine decision tail leaves the stored drop rate
of a surviving tracking record unchanged. -/
theorem engineDecide_drop (m : List MatrixRow) (t : ETrack) (pos : Option EPos)
    (t' : ETrack) :
    (engineDecide m t pos).1 = some t' → t'.drop_rate = t.drop_rate := by
  intro h
  cases pos with
  | none =>
      simp only [engineDecide, stopBranch, executeStopLoss] at h
      split_ifs at h <;>
        first
          | (injection h with h2; subst h2; rfl)
          | exact Option.noConfusion h
  | some pp =>
      simp only [engineDecide, stopBranch, executeStopLoss, Option.map] at h
      split_ifs at h <;>
        first
          | (injection h with h2; subst h2; rfl)
          | exact Option.noConfusion h

/-- C2 amended: in TrackingInfo.update_price, every update with a
positive start price that does not raise the high recomputes the drop
rate as the clamped difference between the stored cumulative rise and
the current rise from the start price (a high-raising update returns
early and leaves the drop rate unchanged); TumepokEngine.
update_tracking_stock instead stores the naive high-based pullback, the
drop from the running high as a percentage of the high, on every update
with a positive high. -/
theorem c2_drop_rate_amended :
    (∀ (m : List MatrixRow) (today : ℤ) (p : ℚ) (dcr hp : Option ℚ) (s : TrackingInfo),
      0 < s.start_price →
      (updatePrice m today p dcr hp s).2 ≠ .highUpdated →
      (updatePrice m today p dcr hp s).1.drop_rate =
        max 0 (s.rise_rate - (p - s.start_price) / s.start_price * 100)) ∧
    (∀ (m : List MatrixRow) (p : ℚ) (dcr hp : Option ℚ) (t : ETrack) (pos : Option EPos)
      (t' : ETrack),
      (engineUpdateTrackingStock m p dcr hp t pos).1 = some t' →
      0 < (engineHighUpdate p dcr hp t).1.high_price →
      t'.drop_rate = ((engineHighUpdate p dcr hp t).1.high_price - p) /
        (engineHighUpdate p dcr hp t).1.high_price * 100) := by
  constructor
  · intro m today p dcr hp s h0 hne
    rw [show updatePrice m today p dcr hp s = updatePriceCore m today p
        (highStep p hp (preTick today p dcr s)).1
        (highStep p hp (preTick today p dcr s)).2 from rfl] at hne ⊢
    have hsf := highStep_fields p hp (preTick today p dcr s)
    cases hhu : (highStep p hp (preTick today p dcr s)).2 with
    | true =>
        rw [hhu] at hne
        exact absurd
          (updatePriceCore_true m today p (highStep p hp (preTick today p dcr s)).1).1 hne
    | false =>
        have h1 : (highStep p hp (preTick today p dcr s)).1.start_price = s.start_price := by
          rw [hsf.2.1]; rfl
        have h2 : (highStep p hp (preTick today p dcr s)).1.rise_rate = s.rise_rate := by
          rw [hsf.2.2.2.2.1]; rfl
        rw [(updatePriceCore_false m today p (highStep p hp (preTick today p dcr s)).1).2
          (by rw [h1]; exact h0), h1, h2]
  · intro m p dcr hp t pos t' h hfh
    unfold engineUpdateTrackingStock at h
    dsimp only at h
    have hd := engineDecide_drop m _ pos t' h
    rw [hd]
    dsimp only
    rw [if_pos hfh]

/-- Witness for C2: a READY tracker at start 100, high 150, stored rise
50, ticked at 140 without a new high, recomputes the drop rate as the
clamped 50 minus 40, that is 10. -/
theorem c2_drop_rate_witness :
    (updatePrice [] 1 140 none none
      ⟨0, 100, 150, 0, 1, 50, 0, 0, 8, 15, 8, 23/2, 15, .ready, 0, [], []⟩).1.drop_rate
      = 10 := by
  have h := c2_drop_rate_amended.1 [] 1 140 none none
    ⟨0, 100, 150, 0, 1, 50, 0, 0, 8, 15, 8, 23/2, 15, .ready, 0, [], []⟩
    (by norm_num)
    (by norm_num [updatePrice, preTick, highStep, updatePriceCore, updateDailyPrices] <;> decide)
  rw [h]
  norm_num

/-- C4 counterexample: a WAITING tracker with one waiting day, start 100
and high 110, ticked at 120 (a new high), returns highUpdated with the
waiting counter still 1 and the status still WAITING, refuting the
claimed reset to 0 and forced TRACKING in the same update. -/
theorem c4_counterexample :
    (updatePrice [⟨0, 999, 3, 5⟩] 2 120 none none
      ⟨0, 100, 110, 0, 1, 10, 0, 0, 3, 5, 3, 4, 5, .waiting, 1, [],
        [⟨0, 100, true⟩, ⟨1, 110, true⟩]⟩).2 = .highUpdated ∧
    (updatePrice [⟨0, 999, 3, 5⟩] 2 120 none none
      ⟨0, 100, 110, 0, 1, 10, 0, 0, 3, 5, 3, 4, 5, .waiting, 1, [],
        [⟨0, 100, true⟩, ⟨1, 110, true⟩]⟩).1.waiting_days = 1 ∧
    (updatePrice [⟨0, 999, 3, 5⟩] 2 120 none none
      ⟨0, 100, 110, 0, 1, 10, 0, 0, 3, 5, 3, 4, 5, .waiting, 1, [],
        [⟨0, 100, true⟩, ⟨1, 110, true⟩]⟩).1.status = .waiting ∧
    (1 : ℤ) ≠ 0 ∧ TStatus.waiting ≠ .tracking := by
  refine ⟨?_, ?_, ?_, by norm_num, by simp⟩ <;>
    norm_num [updatePrice, preTick, highStep, updatePriceCore,
      updateDailyPrices, updateTumepokCalculation, matrixLookup, findRow,
      lastRow, rowContains]

/-- C4 amended: in TumepokEngine.update_tracking_stock the high step
itself resets the waiting counter to 0 and forces TRACKING whenever the
high is raised (the status may move on again in the same update);
TrackingInfo.update_price instead returns highUpdated from a high-raising
tick leaving both the waiting counter and the status unchanged. -/
theorem c4_high_update_amended :
    (∀ (p : ℚ) (dcr hp : Option ℚ) (t : ETrack),
      (engineHighUpdate p dcr hp t).2 = true →
      (engineHighUpdate p dcr hp t).1.waiting_days = 0 ∧
      (engineHighUpdate p dcr hp t).1.status = .tracking ∧
      t.high_price < (engineHighUpdate p dcr hp t).1.high_price) ∧
    (∀ (m : List MatrixRow) (today : ℤ) (p : ℚ) (dcr hp : Option ℚ) (s : TrackingInfo),
      (updatePrice m today p dcr hp s).2 = .highUpdated →
      (updatePrice m today p dcr hp s).1.waiting_days = s.waiting_days ∧
      (updatePrice m today p dcr hp s).1.status = s.status) := by
  constructor
  · intro p dcr hp t h
    cases hp with
    | none =>
        by_cases h4 : p > t.high_price
        · simp [engineHighUpdate, h4]
        · simp [engineHighUpdate, h4] at h
    | some hh =>
        by_cases h1 : (0 : ℚ) < hh
        · by_cases h2 : hh > t.high_price
          · simp [engineHighUpdate, h1, h2]
          · by_cases h3 : p > hh ∧ p > t.high_price
            · simp [engineHighUpdate, h1, h2, h3]
              all_goals exact h3.2
            · simp [engineHighUpdate, h1, h2, h3] at h
        · by_cases h4 : p > t.high_price
          · simp [engineHighUpdate, h1, h4]
          · simp [engineHighUpdate, h1, h4] at h
  · intro m today p dcr hp s h
    rw [show updatePrice m today p dcr hp s = updatePriceCore m today p
        (highStep p hp (preTick today p dcr s)).1
        (highStep p hp (preTick today p dcr s)).2 from rfl] at h ⊢
    have hsf := highStep_fields p hp (preTick today p dcr s)
    cases hhu : (highStep p hp (preTick today p dcr s)).2 with
    | false =>
        rw [hhu] at h
        exact absurd h (updatePriceCore_false m today p _).1
    | true =>
        obtain ⟨-, hw, hs2⟩ :=
          updatePriceCore_true m today p (highStep p hp (preTick today p dcr s)).1
        constructor
        · rw [hw, hsf.2.2.2.2.2.2.2.2.1]; rfl
        · rw [hs2, hsf.2.2.2.2.2.2.2.1]; rfl

/-- Witness for C4: a WAITING engine record with high 110 and five
waiting days, ticked at 120, leaves the high step with waiting counter 0
and status TRACKING. -/
theorem c4_high_update_witness :
    (engineHighUpdate 120 none none
      ⟨0, 0, 100, 110, 1, 5, .waiting, 0, 0, 0, [], none⟩).1.waiting_days = 0 ∧
    (engineHighUpdate 120 none none
      ⟨0, 0, 100, 110, 1, 5, .waiting, 0, 0, 0, [], none⟩).1.status = .tracking := by
  have h := c4_high_update_amended.1 120 none none
    ⟨0, 0, 100, 110, 1, 5, .waiting, 0, 0, 0, [], none⟩
    (by norm_num [engineHighUpdate])
  exact ⟨h.1, h.2.1⟩

/-- Number of stop-loss orders emitted by n successive runs of
TumepokEngine.execute_stop_loss on one symbol, threading the tracking
and position state through each call. -/
def stopLossFireCount : ℕ → Option ETrack → Option EPos → ℕ
  | 0, _, _ => 0
  | n + 1, tr, pos =>
      (if (executeStopLoss tr pos).2.2 then 1 else 0) +
        stopLossFireCount n (executeStopLoss tr pos).1 (executeStopLoss tr pos).2.1

/-- A position state from which execute_stop_loss can never emit an
order: absent, empty, or with the single-shot guard already set. -/
def slDisarmed : Option EPos → Prop
  | none => True
  | some p => p.total_quantity ≤ 0 ∨ p.stop_loss_executed = true

/-- A disarmed position stays disarmed and emits nothing. -/
theorem executeStopLoss_disarmed (tr : Option ETrack) (pos : Option EPos)
    (h : slDisarmed pos) :
    (executeStopLoss tr pos).2.2 = false ∧
    slDisarmed (executeStopLoss tr pos).2.1 := by
  cases pos with
  | none => simp [executeStopLoss, slDisarmed]
  | some p =>
      rcases h with h | h
      · simp [executeStopLoss, if_pos h, slDisarmed, h]
      · by_cases hq : p.total_quantity ≤ 0 <;>
          simp [executeStopLoss, hq, h, slDisarmed]

/-- Firing the stop-loss leaves the position disarmed. -/
theorem executeStopLoss_fire_disarms (tr : Option ETrack) (pos : Option EPos) :
    (executeStopLoss tr pos).2.2 = true →
    slDisarmed (executeStopLoss tr pos).2.1 := by
  cases pos with
  | none => simp [executeStopLoss, slDisarmed]
  | some p =>
      by_cases hq : p.total_quantity ≤ 0
      · simp [executeStopLoss, hq, slDisarmed]
      · by_cases hf : p.stop_loss_executed <;>
          simp [executeStopLoss, hq, hf, slDisarmed]

/-- A disarmed position never fires however many times the stop-loss
path runs. -/
theorem stopLossFireCount_disarmed (n : ℕ) (tr : Option ETrack)
    (pos : Option EPos) (h : slDisarmed pos) :
    stopLossFireCount n tr pos = 0 := by
  induction n generalizing tr pos with
  | zero => rfl
  | succ k ih =>
      obtain ⟨h1, h2⟩ := executeStopLoss_disarmed tr pos h
      simp [stopLossFireCount, h1, ih _ _ h2]

/-- C5 amended: the engine path TumepokEngine.execute_stop_loss fires at
most once per position: a fire requires the single-shot guard clear,
sets it permanently and moves the position to SELLING, a set guard makes
the call a no-op, and any number of successive calls emits at most one
order; PositionInfo.check_sell_conditions however carries no guard and
returns a stop-loss signal on every evaluation at or below the stop-loss
rate. -/
theorem c5_stop_loss_amended :
    (∀ (n : ℕ) (tr : Option ETrack) (pos : Option EPos),
      stopLossFireCount n tr pos ≤ 1) ∧
    (∀ (tr : Option ETrack) (p : EPos),
      (executeStopLoss tr (some p)).2.2 = true →
      ∃ p2, (executeStopLoss tr (some p)).2.1 = some p2 ∧
        p2.stop_loss_executed = true ∧ p.stop_loss_executed = false ∧
        p2.status = .selling) ∧
    (∀ (tr : Option ETrack) (p : EPos), p.stop_loss_executed = true →
      executeStopLoss tr (some p) = (tr, some p, false)) ∧
    (∀ s : PosInfo, s.profit_rate ≤ s.stop_loss_rate →
      checkSellConditions s = some .stopLoss) := by
  refine ⟨?_, ?_, ?_, ?_⟩
  · intro n
    induction n with
    | zero => intro tr pos; simp [stopLossFireCount]
    | succ k ih =>
        intro tr pos
        by_cases hf : (executeStopLoss tr pos).2.2 = true
        · have hz := stopLossFireCount_disarmed k (executeStopLoss tr pos).1
            (executeStopLoss tr pos).2.1 (executeStopLoss_fire_disarms tr pos hf)
          simp [stopLossFireCount, hf, hz]
        · simp only [stopLossFireCount, if_neg hf, Nat.zero_add]
          exact ih _ _
  · intro tr p h
    by_cases hq : p.total_quantity ≤ 0
    · simp [executeStopLoss, hq] at h
    · by_cases hfl : p.stop_loss_executed
      · simp [executeStopLoss, hq, hfl] at h
      · refine ⟨{ p with stop_loss_executed := true, status := .selling },
          ?_, rfl, ?_, rfl⟩
        · simp [executeStopLoss, hq, hfl]
        · simpa using hfl
  · intro tr p h
    by_cases hq : p.total_quantity ≤ 0
    · simp [executeStopLoss, hq]
    · simp [executeStopLoss, hq, h]
  · intro s h
    unfold checkSellConditions
    rw [if_pos h]

/-- C5 counterexample: a position averaged at 100 updated to 95 yields a
stop-loss signal from PositionInfo.check_sell_conditions, and a further
update to 90, an even deeper pullback, yields a second stop-loss signal
for the same position. -/
theorem c5_counterexample :
    checkSellConditions
      (updateCurrentPrice (addBuyStage initPosInfo ⟨.s1, 100, 10, 1000⟩) 95)
      = some .stopLoss ∧
    checkSellConditions
      (updateCurrentPrice
        (updateCurrentPrice (addBuyStage initPosInfo ⟨.s1, 100, 10, 1000⟩) 95) 90)
      = some .stopLoss := by
  constructor <;>
    norm_num [checkSellConditions, updateCurrentPrice, addBuyStage,
      calculateWeightedAvgPrice, initPosInfo, calculateProfitRate,
      updateTrailingStop]

/-- Witness for C5: three successive engine stop-loss runs from an empty
state fire at most once, and a concrete position 5 percent under water
returns the stop-loss signal. -/
theorem c5_stop_loss_witness :
    stopLossFireCount 3 none none ≤ 1 ∧
    checkSellConditions ⟨[], 0, 0, 0, 0, -5, 0, false, 0, 2, -1, -2, .holding⟩
      = some .stopLoss :=
  ⟨c5_stop_loss_amended.1 3 none none,
    c5_stop_loss_amended.2.2.2 _ (by norm_num)⟩

/-! Trailing-stop helper lemmas. -/

/-- The trailing flag after an update is the old flag or the trigger
condition: activation is exactly the first time the profit rate reaches
the trigger, and the flag never turns off. -/
theorem updateTrailingStop_act (s : PosInfo) :
    (updateTrailingStop s).trailing_activated =
      (s.trailing_activated || decide (s.profit_rate ≥ s.trailing_trigger_rate)) := by
  by_cases hact : s.trailing_activated
  · by_cases hc : s.current_price > s.trailing_high <;>
      simp [updateTrailingStop, hact, hc]
  · by_cases hp : s.profit_rate ≥ s.trailing_trigger_rate <;>
      simp [updateTrailingStop, hact, hp]

/-- While active, the trailing high never decreases in one update. -/
theorem updateTrailingStop_mono (s : PosInfo) (hact : s.trailing_activated = true) :
    s.trailing_high ≤ (updateTrailingStop s).trailing_high := by
  by_cases hc : s.current_price > s.trailing_high
  · simp [updateTrailingStop, hact, hc]
    exact le_of_lt hc
  · simp [updateTrailingStop, hact, hc]

/-- A price update keeps the trailing flag once set. -/
theorem updateCurrentPrice_act (s : PosInfo) (p : ℚ)
    (h : s.trailing_activated = true) :
    (updateCurrentPrice s p).trailing_activated = true := by
  unfold updateCurrentPrice
  dsimp only
  split_ifs <;> rw [updateTrailingStop_act] <;> simp [h]

/-- A price update never lowers the trailing high of an active position. -/
theorem updateCurrentPrice_mono (s : PosInfo) (p : ℚ)
    (hact : s.trailing_activated = true) :
    s.trailing_high ≤ (updateCurrentPrice s p).trailing_high := by
  unfold updateCurrentPrice
  dsimp only
  split_ifs <;> exact updateTrailingStop_mono _ (by simp [hact])

/-- C6: trailing-stop invariants hold on both position paths.  For
PositionInfo: a trailing-sell signal from check_sell_conditions requires
the trailing flag; the flag after update_trailing_stop is exactly the
old flag or the trigger condition; on activation the trailing high is
set to the current price; and the trailing high of an active position is
monotone across one update and across any sequence of price updates.
For TumepokEngine.check_sell_conditions: a trailing-sell result implies
the flag is set in the resulting position; with the flag clear and the
profit below the trigger no trailing sell is emitted and the flag stays
clear; and once active the recorded trailing high never decreases. -/
theorem c6_trailing_invariants :
    (∀ s : PosInfo, checkSellConditions s = some .trailingSell →
      s.trailing_activated = true) ∧
    (∀ s : PosInfo, (updateTrailingStop s).trailing_activated =
      (s.trailing_activated || decide (s.profit_rate ≥ s.trailing_trigger_rate))) ∧
    (∀ s : PosInfo, s.trailing_activated = false →
      s.profit_rate ≥ s.trailing_trigger_rate →
      (updateTrailingStop s).trailing_high = s.current_price) ∧
    (∀ s : PosInfo, s.trailing_activated = true →
      s.trailing_high ≤ (updateTrailingStop s).trailing_high) ∧
    (∀ (ps : List ℚ) (s : PosInfo), s.trailing_activated = true →
      s.trailing_high ≤ (ps.foldl updateCurrentPrice s).trailing_high) ∧
    (∀ (mdr tt sr : ℚ) (tr : Option ETrack) (pos : EPos),
      (engineCheckSellConditions mdr tt sr tr pos).2 = some .trailingSell →
      (engineCheckSellConditions mdr tt sr tr pos).1.trailing_activated = true) ∧
    (∀ (mdr tt sr : ℚ) (tr : Option ETrack) (pos : EPos),
      pos.trailing_activated = false → pos.profit_rate < tt →
      (engineCheckSellConditions mdr tt sr tr pos).2 ≠ some .trailingSell ∧
      (engineCheckSellConditions mdr tt sr tr pos).1.trailing_activated = false) ∧
    (∀ (mdr tt sr : ℚ) (tr : Option ETrack) (pos : EPos) (h : ℚ),
      pos.trailing_activated = true → pos.trailing_high = some h →
      ∃ h2, (engineCheckSellConditions mdr tt sr tr pos).1.trailing_high = some h2 ∧
        h ≤ h2) := by
  refine ⟨?_, updateTrailingStop_act, ?_, updateTrailingStop_mono, ?_, ?_, ?_, ?_⟩
  · intro s hsig
    unfold checkSellConditions at hsig
    split_ifs at hsig with h1 h2
    · exact absurd hsig (by simp)
    · exact h2.1
  · intro s hact hp
    simp [updateTrailingStop, hact, hp]
  · intro ps
    induction ps with
    | nil => intro s hact; simp
    | cons q rest ih =>
        intro s hact
        calc s.trailing_high ≤ (updateCurrentPrice s q).trailing_high :=
              updateCurrentPrice_mono s q hact
          _ ≤ (rest.foldl updateCurrentPrice (updateCurrentPrice s q)).trailing_high :=
              ih _ (updateCurrentPrice_act s q hact)
  · intro mdr tt sr tr pos h
    unfold engineCheckSellConditions at h ⊢
    by_cases hss : engineStopSignal mdr tr pos
    · rw [if_pos hss] at h
      exact absurd h (by simp)
    · rw [if_neg hss] at h ⊢
      dsimp only at h ⊢
      by_cases hcond : (!pos.trailing_activated ∧ pos.profit_rate ≥ tt)
      · rw [if_pos hcond] at h ⊢
        split_ifs at h ⊢ <;> simp_all
      · rw [if_neg hcond] at h ⊢
        by_cases hact : pos.trailing_activated
        · split_ifs at h ⊢ <;> simp_all
        · split_ifs at h ⊢ <;> simp_all
  · intro mdr tt sr tr pos hact hp
    unfold engineCheckSellConditions
    by_cases hss : engineStopSignal mdr tr pos
    · rw [if_pos hss]
      exact ⟨by simp, hact⟩
    · rw [if_neg hss]
      dsimp only
      have hc1 : ¬((!pos.trailing_activated) = true ∧ pos.profit_rate ≥ tt) := by
        simp [hact, not_le, hp]
      rw [if_neg hc1]
      have hc2 : ¬(pos.trailing_activated = true) := by simp [hact]
      rw [if_neg hc2]
      exact ⟨by simp, hact⟩
  · intro mdr tt sr tr pos h hact hh
    unfold engineCheckSellConditions
    by_cases hss : engineStopSignal mdr tr pos
    · rw [if_pos hss]
      exact ⟨h, hh, le_refl h⟩
    · rw [if_neg hss]
      dsimp only
      have hc1 : ¬((!pos.trailing_activated) = true ∧ pos.profit_rate ≥ tt) := by
        simp [hact]
      rw [if_neg hc1, if_pos hact, hh]
      dsimp only [Option.getD]
      by_cases hc : pos.current_price > h
      · rw [if_pos hc]
        split_ifs <;> exact ⟨pos.current_price, by simp, le_of_lt hc⟩
      · rw [if_neg hc]
        split_ifs <;> exact ⟨h, hh, le_refl h⟩

/-- Witness for C6: a position with 3 percent profit and the default 2
percent trigger activates with its trailing high set to the current
price 110; and an active position with trailing high 100 keeps at least
100 through the updates 105 and 95. -/
theorem c6_trailing_witness :
    (updateTrailingStop
      ⟨[], 0, 0, 0, 110, 3, 0, false, 0, 2, -1, -2, .holding⟩).trailing_high = 110 ∧
    (⟨[], 0, 0, 100, 0, 0, 0, true, 100, 2, -1, -2, .holding⟩ : PosInfo).trailing_high ≤
      (([105, 95] : List ℚ).foldl updateCurrentPrice
        ⟨[], 0, 0, 100, 0, 0, 0, true, 100, 2, -1, -2, .holding⟩).trailing_high :=
  ⟨c6_trailing_invariants.2.2.1 _ rfl (by norm_num),
    c6_trailing_invariants.2.2.2.2.1 [105, 95] _ rfl⟩

/-- C7: RiskManager.check_entry_allowed evaluates its five rejection
rules in the fixed source order with the first failing rule determining
the reason, and allows entry exactly when no rule fails. -/
theorem c7_admission_gate (st : RiskSettings) (rd : ℤ) (rr : ℚ) (amt cp : ℤ) :
    (rd ≥ 5 → checkEntryAllowed st rd rr amt cp = (false, .riseDaysExceeded)) ∧
    (rd < 5 → cp ≥ st.max_position_stocks →
      checkEntryAllowed st rd rr amt cp = (false, .maxPositionsExceeded)) ∧
    (rd < 5 → cp < st.max_position_stocks → amt > st.max_single_position →
      checkEntryAllowed st rd rr amt cp = (false, .maxSingleExceeded)) ∧
    (rd < 5 → cp < st.max_position_stocks → amt ≤ st.max_single_position →
      st.daily_total_profit ≤ st.daily_loss_limit →
      checkEntryAllowed st rd rr amt cp = (false, .dailyLossReached)) ∧
    (rd < 5 → cp < st.max_position_stocks → amt ≤ st.max_single_position →
      st.daily_loss_limit < st.daily_total_profit → amt < 50000 →
      checkEntryAllowed st rd rr amt cp = (false, .minOrderNotMet)) ∧
    ((checkEntryAllowed st rd rr amt cp).1 = true ↔
      (rd < 5 ∧ cp < st.max_position_stocks ∧ amt ≤ st.max_single_position ∧
        st.daily_loss_limit < st.daily_total_profit ∧ 50000 ≤ amt)) := by
  unfold checkEntryAllowed
  refine ⟨?_, ?_, ?_, ?_, ?_, ?_⟩ <;>
    split_ifs <;>
    simp_all <;>
    first
      | omega
      | linarith

/-- Witness for C7: with the default limits (30 positions, 500000 per
symbol, daily loss limit minus 200000, flat day), 3 rise days, 4 open
positions and a 100000 amount is allowed, while 6 rise days is rejected
for exceeded rise days. -/
theorem c7_admission_witness :
    (checkEntryAllowed ⟨30, 500000, -200000, 0⟩ 3 10 100000 4).1 = true ∧
    checkEntryAllowed ⟨30, 500000, -200000, 0⟩ 6 10 100000 4 =
      (false, .riseDaysExceeded) :=
  ⟨(c7_admission_gate ⟨30, 500000, -200000, 0⟩ 3 10 100000 4).2.2.2.2.2.mpr
      (by norm_num),
    (c7_admission_gate ⟨30, 500000, -200000, 0⟩ 6 10 100000 4).1 (by norm_num)⟩

/-- Adding a stage adds its amount to the running total. -/
theorem addBuyStage_amount (acc : PosInfo) (st : StageInfo) :
    (addBuyStage acc st).total_amount = acc.total_amount + st.amount := by
  unfold addBuyStage calculateWeightedAvgPrice
  split_ifs <;> rfl

/-- Adding a stage adds its quantity to the running total. -/
theorem addBuyStage_quantity (acc : PosInfo) (st : StageInfo) :
    (addBuyStage acc st).total_quantity = acc.total_quantity + st.quantity := by
  unfold addBuyStage calculateWeightedAvgPrice
  split_ifs <;> rfl

/-- The totals after a sequence of stage additions are the initial totals
plus the stage sums. -/
theorem foldl_addBuyStage_totals (l : List StageInfo) :
    ∀ acc : PosInfo,
      (l.foldl addBuyStage acc).total_amount =
        acc.total_amount + (l.map StageInfo.amount).sum ∧
      (l.foldl addBuyStage acc).total_quantity =
        acc.total_quantity + (l.map StageInfo.quantity).sum := by
  induction l with
  | nil => intro acc; simp
  | cons st rest ih =>
      intro acc
      have h := ih (addBuyStage acc st)
      constructor
      · rw [List.foldl_cons, h.1, addBuyStage_amount]
        simp [add_assoc]
      · rw [List.foldl_cons, h.2, addBuyStage_quantity]
        simp [add_assoc]

/-- After a nonempty sequence of stage additions the stored weighted
average equals the guarded quotient of the final totals, exactly as the
last call of calculate_weighted_avg_price left it. -/
theorem foldl_addBuyStage_wavg :
    ∀ (l : List StageInfo) (acc : PosInfo), l ≠ [] →
      (l.foldl addBuyStage acc).weighted_avg_price =
        (if 0 < (l.foldl addBuyStage acc).total_amount then
          (l.foldl addBuyStage acc).total_amount /
            ((l.foldl addBuyStage acc).total_quantity : ℚ)
        else 0) := by
  intro l
  induction l with
  | nil => intro acc h; exact absurd rfl h
  | cons st rest ih =>
      intro acc _
      rcases hr : rest with _ | ⟨b, rest2⟩
      · simp only [List.foldl_cons, List.foldl_nil]
        unfold addBuyStage calculateWeightedAvgPrice
        split_ifs <;> simp_all
      · have h := ih (addBuyStage acc st) (by simp [hr])
        rw [hr] at h
        simpa using h

/-- C10: for every nonempty sequence of buy stages with positive
quantities and positive amounts added through add_buy_stage, the final
totals are the stage sums, the guard amount is positive so the division
by the total quantity is defined on a nonzero denominator, and the
stored weighted average equals total amount over total quantity. -/
theorem c10_weighted_avg (l : List StageInfo) (hl : l ≠ [])
    (hpos : ∀ st ∈ l, 0 < st.quantity ∧ 0 < st.amount) :
    (l.foldl addBuyStage initPosInfo).total_amount = (l.map StageInfo.amount).sum ∧
    (l.foldl addBuyStage initPosInfo).total_quantity = (l.map StageInfo.quantity).sum ∧
    0 < (l.foldl addBuyStage initPosInfo).total_amount ∧
    0 < (l.foldl addBuyStage initPosInfo).total_quantity ∧
    (l.foldl addBuyStage initPosInfo).weighted_avg_price =
      (l.map StageInfo.amount).sum / (((l.map StageInfo.quantity).sum : ℤ) : ℚ) := by
  have ht := foldl_addBuyStage_totals l initPosInfo
  have hta : (l.foldl addBuyStage initPosInfo).total_amount =
      (l.map StageInfo.amount).sum := by
    rw [ht.1]; simp [initPosInfo]
  have htq : (l.foldl addBuyStage initPosInfo).total_quantity =
      (l.map StageInfo.quantity).sum := by
    rw [ht.2]; simp [initPosInfo]
  have hamt : 0 < (l.map StageInfo.amount).sum := by
    apply List.sum_pos
    · intro a ha
      obtain ⟨st, hst, hmap⟩ := List.mem_map.mp ha
      exact hmap ▸ (hpos st hst).2
    · simpa using hl
  have hqty : 0 < (l.map StageInfo.quantity).sum := by
    apply List.sum_pos
    · intro a ha
      obtain ⟨st, hst, hmap⟩ := List.mem_map.mp ha
      exact hmap ▸ (hpos st hst).1
    · simpa using hl
  refine ⟨hta, htq, by rw [hta]; exact hamt, by rw [htq]; exact hqty, ?_⟩
  rw [foldl_addBuyStage_wavg l initPosInfo hl, if_pos (by rw [hta]; exact hamt),
    hta, htq]

/-- Witness for C10: two stages of 10 shares for 1000 and 10 shares for
800 average to 90 per share. -/
theorem c10_weighted_avg_witness :
    (([⟨.s1, 100, 10, 1000⟩, ⟨.s2, 80, 10, 800⟩] : List StageInfo).foldl
      addBuyStage initPosInfo).weighted_avg_price = 90 := by
  have h := c10_weighted_avg [⟨.s1, 100, 10, 1000⟩, ⟨.s2, 80, 10, 800⟩]
    (by simp)
    (by
      intro st hst
      rcases List.mem_cons.mp hst with h1 | h1
      · rw [h1]; exact ⟨by norm_num, by norm_num⟩
      · rcases List.mem_cons.mp h1 with h2 | h2
        · rw [h2]; exact ⟨by norm_num, by norm_num⟩
        · simp at h2)
  rw [h.2.2.2.2]
  norm_num
